import Mathlib

/-!
Shallow embedding of the cuid2-rs library (src/lib.rs): a CUID2-style
identifier generator and validator.  Machine integers are modelled as `Nat`
with explicit reduction modulo `2 ^ 64` (resp. `2 ^ 8`) where the Rust code
relies on fixed-width arithmetic.  Rust `String`s are modelled as `List Char`;
all characters the library produces are ASCII, and the only place where
Rust's byte-based `str::len` could differ from the character count (the
validator) models the UTF-8 byte length explicitly.  The platform services
used by the library (the OS entropy source, the system clock and the
process-wide atomic counter) are passed in explicitly: pseudorandom streams
become oracle functions `Nat → Nat`, a failed OS entropy fetch or clock read
becomes `none`, and the counter becomes an explicit state component threaded
through `generate_cuid`.
-/

namespace Cuid2

/-- Modulus of 64-bit arithmetic. -/
def U64 : Nat := 2 ^ 64

/-! ## SHA3-512 (Keccak), as used by the `sha3` crate

`compute_hash` calls `Sha3_512`, i.e. Keccak with rate 576 bits (72 bytes),
capacity 1024 bits, SHA-3 domain padding `0x06 … 0x80`, producing a 64-byte
digest.  The state is 25 lanes of 64 bits, stored as a flat list with lane
`A[x, y]` at index `x + 5 * y`; bytes map to lanes little-endian. -/

/-- Rotate a 64-bit lane left by `n` bits (`0 ≤ n < 64`). -/
def rotl64 (v n : Nat) : Nat := ((v <<< n) % U64) ||| (v >>> (64 - n))

/-- Flat index of lane `A[x, y]` (coordinates taken mod 5). -/
def idx (x y : Nat) : Nat := (x % 5) + 5 * (y % 5)

/-- Read lane `A[x, y]` from the flat state. -/
def getLane (st : List Nat) (x y : Nat) : Nat := st.getD (idx x y) 0

/-- Position of the lane written at step `t` of the ρ offset generation
(FIPS 202 §3.2.2): start at `(1, 0)` and apply `(x, y) ↦ (y, (2x + 3y) % 5)`. -/
def rhoPos : Nat → Nat × Nat
  | 0 => (1, 0)
  | t + 1 => ((rhoPos t).2, (2 * (rhoPos t).1 + 3 * (rhoPos t).2) % 5)

/-- Keccak ρ rotation offsets, indexed by `x + 5 * y`: lane `(0, 0)` keeps
offset 0, and the lane at `rhoPos t` rotates by the triangular number
`(t + 1)(t + 2) / 2 mod 64`. -/
def ROT : List Nat :=
  (List.range 24).foldl
    (fun tbl t => tbl.set ((rhoPos t).1 + 5 * (rhoPos t).2) ((t + 1) * (t + 2) / 2 % 64))
    (List.replicate 25 0)

/-- Keccak round constants for the 24 rounds of Keccak-f[1600]. -/
def RC : List Nat :=
  [0x0000000000000001, 0x0000000000008082, 0x800000000000808a, 0x8000000080008000,
   0x000000000000808b, 0x0000000080000001, 0x8000000080008081, 0x8000000000008009,
   0x000000000000008a, 0x0000000000000088, 0x0000000080008009, 0x000000008000000a,
   0x000000008000808b, 0x800000000000008b, 0x8000000000008089, 0x8000000000008003,
   0x8000000000008002, 0x8000000000000080, 0x000000000000800a, 0x800000008000000a,
   0x8000000080008081, 0x8000000000008080, 0x0000000080000001, 0x8000000080008008]

/-- Keccak θ step. -/
def theta (st : List Nat) : List Nat :=
  let C := fun x =>
    (getLane st x 0) ^^^ (getLane st x 1) ^^^ (getLane st x 2) ^^^
      (getLane st x 3) ^^^ (getLane st x 4)
  let D := fun x => (C ((x + 4) % 5)) ^^^ rotl64 (C ((x + 1) % 5)) 1
  (List.range 25).map (fun i => (st.getD i 0) ^^^ D (i % 5))

/-- Keccak ρ and π steps combined: the lane landing at `B[X, Y]` is
`A[X + 3Y, X]` rotated by its offset. -/
def rhoPi (st : List Nat) : List Nat :=
  (List.range 25).map (fun i =>
    let X := i % 5
    let Y := i / 5
    let x := (X + 3 * Y) % 5
    let y := X
    rotl64 (getLane st x y) (ROT.getD (x + 5 * y) 0))

/-- Keccak χ step; the 64-bit complement is XOR with the all-ones mask. -/
def chi (st : List Nat) : List Nat :=
  (List.range 25).map (fun i =>
    let x := i % 5
    let y := i / 5
    (getLane st x y) ^^^ (((getLane st (x + 1) y) ^^^ (U64 - 1)) &&& (getLane st (x + 2) y)))

/-- Keccak ι step: XOR the round constant into lane `A[0, 0]`. -/
def iota (rc : Nat) (st : List Nat) : List Nat :=
  match st with
  | [] => []
  | a :: rest => (a ^^^ rc) :: rest

/-- One Keccak round. -/
def keccakRound (st : List Nat) (rc : Nat) : List Nat := iota rc (chi (rhoPi (theta st)))

/-- The Keccak-f[1600] permutation: 24 rounds. -/
def keccakF (st : List Nat) : List Nat := RC.foldl keccakRound st

/-- Rate of SHA3-512 in bytes: 576 bits. -/
def rateBytes : Nat := 72

/-- SHA-3 multi-rate padding with domain suffix `01`: append `0x06`, zero-fill
to a multiple of the rate, and set the top bit of the final byte (`0x86` when
a single padding byte suffices). -/
def sha3pad (msg : List Nat) : List Nat :=
  let padLen := rateBytes - msg.length % rateBytes
  if padLen = 1 then msg ++ [0x86]
  else msg ++ [0x06] ++ List.replicate (padLen - 2) 0 ++ [0x80]

/-- Assemble a 64-bit lane from up to 8 bytes, little-endian. -/
def bytesToLane (bytes : List Nat) : Nat :=
  bytes.foldr (fun b acc => b % 256 + 256 * acc) 0

/-- Absorb one rate-sized block: XOR it into the first 9 lanes, then permute. -/
def absorbBlock (st block : List Nat) : List Nat :=
  keccakF ((List.range 25).map (fun i =>
    (st.getD i 0) ^^^ bytesToLane ((block.drop (8 * i)).take 8)))

/-- Absorb a padded message (whose length is a multiple of the rate) into the
all-zero initial state, block by block. -/
def absorb (padded : List Nat) : List Nat :=
  (List.range (padded.length / rateBytes)).foldl
    (fun st i => absorbBlock st ((padded.drop (rateBytes * i)).take rateBytes))
    (List.replicate 25 0)

/-- The 8 bytes of a 64-bit lane, little-endian. -/
def laneBytes (v : Nat) : List Nat := (List.range 8).map (fun k => (v >>> (8 * k)) % 256)

/-- All 200 bytes of the Keccak state. -/
def stateBytes (st : List Nat) : List Nat :=
  ((List.range 25).map (fun i => laneBytes (st.getD i 0))).flatten

/-- SHA3-512 over a byte string: absorb the padded message and squeeze the
first 64 bytes (which fit inside a single 72-byte rate block). -/
def sha3_512 (msg : List Nat) : List Nat := (stateBytes (absorb (sha3pad msg))).take 64

/-! ## Hex encoding (the `hex` crate) and UTF-8 -/

/-- Lowercase hexadecimal digit for a nibble. -/
def hexDigitChar (d : Nat) : Char :=
  if d < 10 then Char.ofNat (48 + d) else Char.ofNat (87 + d)

/-- Lowercase hex rendering of a byte string, as produced by `hex::encode`:
two characters per byte, high nibble first. -/
def hexEncode (bytes : List Nat) : List Char :=
  bytes.flatMap (fun b => [hexDigitChar (b / 16 % 16), hexDigitChar (b % 16)])

/-- UTF-8 encoding of a single character. -/
def utf8Char (c : Char) : List Nat :=
  let v := c.toNat
  if v < 0x80 then [v]
  else if v < 0x800 then [0xC0 ||| (v >>> 6), 0x80 ||| (v &&& 0x3F)]
  else if v < 0x10000 then
    [0xE0 ||| (v >>> 12), 0x80 ||| ((v >>> 6) &&& 0x3F), 0x80 ||| (v &&& 0x3F)]
  else
    [0xF0 ||| (v >>> 18), 0x80 ||| ((v >>> 12) &&& 0x3F),
     0x80 ||| ((v >>> 6) &&& 0x3F), 0x80 ||| (v &&& 0x3F)]

/-- UTF-8 encoding of a string (Rust `str::as_bytes`). -/
def utf8Encode (s : List Char) : List Nat := s.flatMap utf8Char

/-- UTF-8 byte length of a string (Rust `str::len`). -/
def utf8Len (s : List Char) : Nat := (utf8Encode s).length

/-! ## The library itself (src/lib.rs) -/

/-- Default length for generated CUIDs. -/
def DEFAULT_LENGTH : Nat := 24

/-- Maximum length for generated CUIDs. -/
def MAX_LENGTH : Nat := 32

/-- Minimum length for valid CUIDs. -/
def MIN_LENGTH : Nat := 2

/-- Alphabet for generating random letters. -/
def ALPHABET : List Char := "abcdefghijklmnopqrstuvwxyz".data

/-- Error type for CUID generation and validation.  The payloads of the two
platform-error variants (a `SystemTimeError` and an `OsError`) carry no
information the library inspects, so they are dropped here. -/
inductive CuidError where
  | InvalidLength : Nat → Nat → Nat → CuidError
  | SystemTimeError : CuidError
  | RandChaChaError : CuidError
deriving DecidableEq, Repr

/-- Model of `rand`'s `random_range(0..n)` on an oracle stream of draws: the
crate guarantees the `i`-th sample lies in `[0, n)`, which the reduction
modulo `n` makes explicit. -/
def random_range (stream : Nat → Nat) (i n : Nat) : Nat := stream i % n

/-- `char::from_digit(d, 36)`: `0-9` then lowercase `a-z`, `none` for `d ≥ 36`. -/
def char_from_digit (d : Nat) : Option Char :=
  if d < 10 then some (Char.ofNat (48 + d))
  else if d < 36 then some (Char.ofNat (97 + (d - 10)))
  else none

/-- Platform services consumed by one `generate_cuid` call.  Each RNG use in
the source re-seeds a fresh ChaCha20 stream from `OsRng`, so the letter draw,
the salt draw and the fingerprint draw get independent oracle streams; `none`
models a failed OS entropy fetch (`OsRng.try_next_u64` erroring).
`clockMillis` is the wall-clock time in milliseconds since the Unix epoch;
`none` models `duration_since(UNIX_EPOCH)` failing. -/
structure Env where
  letterSeed : Option (Nat → Nat)
  clockMillis : Option Nat
  saltSeed : Option (Nat → Nat)
  fpSeed : Option (Nat → Nat)

/-- The character string drawn by `generate_entropy` from a given oracle
stream: `length` samples of `random_range(0..36)`, each rendered through
`char::from_digit(·, 36).unwrap()`.  The unwrap is modelled by `Option.getD`
with the junk default `'?'`; `char_from_digit_total` below shows the default
is never used (the unwrap never panics). -/
def entropy_chars (length : Nat) (stream : Nat → Nat) : List Char :=
  (List.range length).map (fun i => (char_from_digit (random_range stream i 36)).getD '?')

/-- Generates random alphanumeric entropy of a given length
(`generate_entropy` in src/lib.rs). -/
def generate_entropy (length : Nat) (seed : Option (Nat → Nat)) :
    Except CuidError (List Char) :=
  match seed with
  | none => Except.error CuidError.RandChaChaError
  | some stream => Except.ok (entropy_chars length stream)

/-- Computes a SHA3-512 hash and returns a truncated hexadecimal string
(`compute_hash` in src/lib.rs).  The byte slice `hash_str[..length]` on the
all-ASCII hex string equals `List.take length` for `length ≤ 128`; beyond 128
the Rust code would panic, which no caller in the library can trigger. -/
def compute_hash (input : List Char) (length : Nat) : List Char :=
  (hexEncode (sha3_512 (utf8Encode input))).take length

/-- The letter drawn by `generate_random_letter` from a given oracle stream:
`ALPHABET[random_range(0..ALPHABET.len())]`.  The Rust byte-index into the
26-byte array is modelled by `getD` (the index is always in bounds). -/
def first_letter_of (stream : Nat → Nat) : Char :=
  ALPHABET.getD (random_range stream 0 ALPHABET.length) '?'

/-- Generates a random lowercase letter (`generate_random_letter` in
src/lib.rs). -/
def generate_random_letter (seed : Option (Nat → Nat)) : Except CuidError Char :=
  match seed with
  | none => Except.error CuidError.RandChaChaError
  | some stream => Except.ok (first_letter_of stream)

/-- The fingerprint computed by `generate_fingerprint` from a given oracle
stream: MAX_LENGTH characters of entropy hashed down to MAX_LENGTH chars. -/
def fingerprint_chars (stream : Nat → Nat) : List Char :=
  compute_hash (entropy_chars MAX_LENGTH stream) MAX_LENGTH

/-- Creates a fingerprint (`generate_fingerprint` in src/lib.rs). -/
def generate_fingerprint (seed : Option (Nat → Nat)) : Except CuidError (List Char) :=
  match generate_entropy MAX_LENGTH seed with
  | Except.error e => Except.error e
  | Except.ok entropy => Except.ok (compute_hash entropy MAX_LENGTH)

/-- One `COUNTER.fetch_add(1, Ordering::SeqCst)` on a counter value `c < 2^64`:
returns the fetched (pre-increment) value and the wrapped new value. -/
def fetch_add_u64 (c : Nat) : Nat × Nat := (c, (c + 1) % U64)

/-- The identifier produced by a successful `generate_cuid` call, as a
function of the drawn oracle streams, the clock reading `ms` and the fetched
counter value `c`: the composite `timestamp ++ salt ++ counter ++ fingerprint`
is hashed to `length` characters and the result is
`first_letter ++ hashed[1..length]`. -/
def cuid_value (length : Nat) (ls : Nat → Nat) (ms c : Nat) (ss fs : Nat → Nat) : List Char :=
  let hash_input := (Nat.repr ms).data ++ entropy_chars length ss
      ++ (Nat.repr c).data ++ fingerprint_chars fs
  let hashed := compute_hash hash_input length
  first_letter_of ls :: ((hashed.take length).drop 1)

/-- Generates a unique identifier similar to CUID2 (`generate_cuid` in
src/lib.rs).  The process-wide `COUNTER` is threaded explicitly: the second
component of the result is the counter value after the call.  The `?`
operators of the source become explicit matches, in source order: the length
check, the letter draw, the clock read, the counter fetch-add, the salt draw,
the fingerprint, the composite hash, and the final assembly
`first_letter ++ hashed[1..length]`. -/
def generate_cuid (length : Nat) (env : Env) (counter : Nat) :
    Except CuidError (List Char) × Nat :=
  if ¬(MIN_LENGTH ≤ length ∧ length ≤ MAX_LENGTH) then
    (Except.error (CuidError.InvalidLength length MIN_LENGTH MAX_LENGTH), counter)
  else
    match generate_random_letter env.letterSeed with
    | Except.error e => (Except.error e, counter)
    | Except.ok first_letter =>
      match env.clockMillis with
      | none => (Except.error CuidError.SystemTimeError, counter)
      | some ms =>
        let timestamp := (Nat.repr ms).data
        let fa := fetch_add_u64 counter
        let counter_value := (Nat.repr fa.1).data
        match generate_entropy length env.saltSeed with
        | Except.error e => (Except.error e, fa.2)
        | Except.ok salt =>
          match generate_fingerprint env.fpSeed with
          | Except.error e => (Except.error e, fa.2)
          | Except.ok fingerprint =>
            let hash_input := timestamp ++ salt ++ counter_value ++ fingerprint
            let hashed := compute_hash hash_input length
            (Except.ok (first_letter :: ((hashed.take length).drop 1)), fa.2)

/-- Generate a CUID with the default length (`generate` in src/lib.rs). -/
def generate (env : Env) (counter : Nat) : Except CuidError (List Char) × Nat :=
  generate_cuid DEFAULT_LENGTH env counter

/-- Rust `char::is_ascii_lowercase`. -/
def is_ascii_lowercase (c : Char) : Bool := 97 ≤ c.toNat && c.toNat ≤ 122

/-- Rust `char::is_ascii_digit`. -/
def is_ascii_digit (c : Char) : Bool := 48 ≤ c.toNat && c.toNat ≤ 57

/-- Validates whether a given ID conforms to CUID2 format (`is_valid_cuid` in
src/lib.rs).  `id.len()` in the source is the UTF-8 byte length, modelled by
`utf8Len`; `chars().next().unwrap()` is safe after the emptiness check and is
modelled by `headD`. -/
def is_valid_cuid (id : List Char) (min_length max_length : Nat) : Bool :=
  if id.isEmpty then false
  else
    let first_char := id.headD '?'
    let starts_with_letter := is_ascii_lowercase first_char
    let valid_format := id.all (fun c => is_ascii_lowercase c || is_ascii_digit c)
    let valid_length := decide (min_length ≤ utf8Len id) && decide (utf8Len id ≤ max_length)
    starts_with_letter && valid_format && valid_length

/-! ## Basic facts about the hash pipeline -/

theorem laneBytes_length (v : Nat) : (laneBytes v).length = 8 := by
  simp [laneBytes]

theorem stateBytes_length (st : List Nat) : (stateBytes st).length = 200 := by
  simp [stateBytes, laneBytes, Function.comp_def, List.map_const']

theorem sha3_512_length (msg : List Nat) : (sha3_512 msg).length = 64 := by
  simp [sha3_512, stateBytes_length]

theorem hexEncode_length (bs : List Nat) : (hexEncode bs).length = 2 * bs.length := by
  induction bs with
  | nil => rfl
  | cons b bs ih =>
    simp only [hexEncode, List.flatMap_cons] at ih ⊢
    simp [ih]
    omega

/-- The sixteen characters `hex::encode` can emit. -/
def hexAlphabet : List Char := "0123456789abcdef".data

theorem hexDigitChar_mem (d : Nat) (h : d < 16) : hexDigitChar d ∈ hexAlphabet := by
  interval_cases d <;> decide

theorem mem_hexEncode {c : Char} {bs : List Nat} (h : c ∈ hexEncode bs) : c ∈ hexAlphabet := by
  rw [hexEncode, List.mem_flatMap] at h
  obtain ⟨b, _, hc⟩ := h
  simp only [List.mem_cons, List.mem_singleton, List.not_mem_nil, or_false] at hc
  rcases hc with h1 | h2
  · exact h1 ▸ hexDigitChar_mem _ (Nat.mod_lt _ (by norm_num))
  · exact h2 ▸ hexDigitChar_mem _ (Nat.mod_lt _ (by norm_num))

theorem hexAlphabet_alnum {c : Char} (h : c ∈ hexAlphabet) :
    (is_ascii_lowercase c || is_ascii_digit c) = true := by
  have hall : hexAlphabet.all (fun c => is_ascii_lowercase c || is_ascii_digit c) = true := by
    decide
  exact List.all_eq_true.mp hall c h

theorem compute_hash_length (input : List Char) (length : Nat) :
    (compute_hash input length).length = min length 128 := by
  simp [compute_hash, hexEncode_length, sha3_512_length]

theorem mem_compute_hash {c : Char} {input : List Char} {n : Nat}
    (h : c ∈ compute_hash input n) : c ∈ hexAlphabet :=
  mem_hexEncode (List.mem_of_mem_take h)

/-- C6: for every input string and every `length ≤ 128`, `compute_hash`
returns exactly the first `length` characters of the lowercase hexadecimal
rendering of the SHA3-512 digest of the input's UTF-8 bytes, the result has
exactly `length` characters, and the function is deterministic: equal inputs
and lengths give identical output. -/
theorem compute_hash_spec (input : List Char) (length : Nat) (h : length ≤ 128) :
    compute_hash input length = (hexEncode (sha3_512 (utf8Encode input))).take length
      ∧ (compute_hash input length).length = length
      ∧ (∀ input2 length2, input2 = input → length2 = length →
          compute_hash input2 length2 = compute_hash input length) := by
  refine ⟨rfl, ?_, ?_⟩
  · rw [compute_hash_length]
    omega
  · intro input2 length2 h1 h2
    rw [h1, h2]

theorem compute_hash_spec_witness :
    (compute_hash ['a'] 16 = (hexEncode (sha3_512 (utf8Encode ['a']))).take 16
      ∧ (compute_hash ['a'] 16).length = 16
      ∧ (∀ input2 length2, input2 = ['a'] → length2 = 16 →
          compute_hash input2 length2 = compute_hash ['a'] 16)) :=
  compute_hash_spec ['a'] 16 (by norm_num)

/-! ## Entropy -/

/-- The 36-character base-36 alphabet `{0-9, a-z}`. -/
def base36Alphabet : List Char := "0123456789abcdefghijklmnopqrstuvwxyz".data

theorem char_from_digit_total (d : Nat) (h : d < 36) :
    (char_from_digit d).isSome = true ∧ (char_from_digit d).getD '?' ∈ base36Alphabet := by
  interval_cases d <;> exact ⟨rfl, by decide⟩

/-- C7: for every requested length, a successful `generate_entropy` call
returns a string of exactly `length` characters, each drawn from the
36-symbol alphabet `{0-9, a-z}`, and the `char::from_digit(·, 36).unwrap()`
inside never panics (the option is always `some`). -/
theorem generate_entropy_spec (length : Nat) (stream : Nat → Nat) :
    ∃ s, generate_entropy length (some stream) = Except.ok s
      ∧ s.length = length
      ∧ (∀ c ∈ s, c ∈ base36Alphabet)
      ∧ (∀ i, (char_from_digit (random_range stream i 36)).isSome = true) := by
  refine ⟨entropy_chars length stream, rfl, by simp [entropy_chars], ?_, ?_⟩
  · intro c hc
    rw [entropy_chars, List.mem_map] at hc
    obtain ⟨i, _, rfl⟩ := hc
    exact (char_from_digit_total _ (Nat.mod_lt _ (by norm_num))).2
  · intro i
    exact (char_from_digit_total _ (Nat.mod_lt _ (by norm_num))).1

/-! ## The validator -/

theorem utf8Char_length_alnum {c : Char}
    (h : (is_ascii_lowercase c || is_ascii_digit c) = true) : (utf8Char c).length = 1 := by
  simp only [is_ascii_lowercase, is_ascii_digit, Bool.or_eq_true, Bool.and_eq_true,
    decide_eq_true_eq] at h
  have hlt : c.toNat < 0x80 := by omega
  rw [utf8Char]
  simp [hlt]

theorem utf8Len_eq_length {id : List Char}
    (h : ∀ c ∈ id, (is_ascii_lowercase c || is_ascii_digit c) = true) :
    utf8Len id = id.length := by
  induction id with
  | nil => rfl
  | cons c cs ih =>
    have h1 := utf8Char_length_alnum (h c (by simp))
    have h2 := ih (fun x hx => h x (List.mem_cons_of_mem _ hx))
    simp only [utf8Len, utf8Encode, List.flatMap_cons, List.length_append,
      List.length_cons] at h2 ⊢
    omega

/-- C4: `is_valid_cuid id min_length max_length` returns `true` iff `id` is
non-empty, its first character is an ASCII lowercase letter, every character
is an ASCII lowercase letter or an ASCII digit, and the length of `id` lies
in `[min_length, max_length]`.  The function is a total predicate: it is
defined on all inputs and returns a `Bool`, never an error. -/
theorem is_valid_cuid_iff (id : List Char) (min_length max_length : Nat) :
    is_valid_cuid id min_length max_length = true ↔
      (id ≠ [] ∧ is_ascii_lowercase (id.headD '?') = true
        ∧ (∀ c ∈ id, (is_ascii_lowercase c || is_ascii_digit c) = true)
        ∧ min_length ≤ id.length ∧ id.length ≤ max_length) := by
  rw [is_valid_cuid]
  rcases id with _ | ⟨c, cs⟩
  · simp
  · simp only [List.isEmpty_cons, Bool.false_eq_true, if_false, Bool.and_eq_true,
      decide_eq_true_eq, List.all_eq_true, ne_eq, reduceCtorEq, not_false_eq_true, true_and,
      List.headD_cons]
    constructor
    · rintro ⟨⟨hfirst, hformat⟩, hlen1, hlen2⟩
      have hlen := utf8Len_eq_length hformat
      exact ⟨hfirst, hformat, by omega, by omega⟩
    · rintro ⟨hfirst, hformat, hlen1, hlen2⟩
      have hlen := utf8Len_eq_length hformat
      exact ⟨⟨hfirst, hformat⟩, by omega, by omega⟩

theorem is_valid_cuid_iff_witness :
    is_valid_cuid ['a', '1'] 2 32 = true ↔
      (['a', '1'] ≠ [] ∧ is_ascii_lowercase (['a', '1'].headD '?') = true
        ∧ (∀ c ∈ ['a', '1'], (is_ascii_lowercase c || is_ascii_digit c) = true)
        ∧ 2 ≤ (['a', '1'] : List Char).length ∧ (['a', '1'] : List Char).length ≤ 32) :=
  is_valid_cuid_iff ['a', '1'] 2 32

/-! ## The generator -/

theorem first_letter_of_mem (stream : Nat → Nat) : first_letter_of stream ∈ ALPHABET := by
  rw [first_letter_of, random_range]
  have h : stream 0 % ALPHABET.length < ALPHABET.length := Nat.mod_lt _ (by decide)
  rw [List.getD_eq_getElem _ _ h]
  exact List.getElem_mem h

theorem ALPHABET_lower {c : Char} (h : c ∈ ALPHABET) : is_ascii_lowercase c = true := by
  have hall : ALPHABET.all (fun c => is_ascii_lowercase c) = true := by decide
  exact List.all_eq_true.mp hall c h

theorem first_letter_of_lower (stream : Nat → Nat) :
    is_ascii_lowercase (first_letter_of stream) = true :=
  ALPHABET_lower (first_letter_of_mem stream)

theorem cuid_value_length (length : Nat) (ls : Nat → Nat) (ms c : Nat) (ss fs : Nat → Nat)
    (h1 : MIN_LENGTH ≤ length) (h2 : length ≤ MAX_LENGTH) :
    (cuid_value length ls ms c ss fs).length = length := by
  rw [MIN_LENGTH] at h1
  rw [MAX_LENGTH] at h2
  simp [cuid_value, compute_hash_length]
  omega

theorem cuid_value_head (length : Nat) (ls : Nat → Nat) (ms c : Nat) (ss fs : Nat → Nat) :
    (cuid_value length ls ms c ss fs).headD '?' = first_letter_of ls := rfl

theorem cuid_value_tail_hex (length : Nat) (ls : Nat → Nat) (ms c : Nat) (ss fs : Nat → Nat)
    {ch : Char} (h : ch ∈ (cuid_value length ls ms c ss fs).drop 1) : ch ∈ hexAlphabet :=
  mem_compute_hash (List.mem_of_mem_take (List.mem_of_mem_drop h))

theorem cuid_value_mem (length : Nat) (ls : Nat → Nat) (ms c : Nat) (ss fs : Nat → Nat)
    {ch : Char} (h : ch ∈ cuid_value length ls ms c ss fs) :
    (is_ascii_lowercase ch || is_ascii_digit ch) = true := by
  rw [cuid_value, List.mem_cons] at h
  rcases h with h | h
  · rw [h]
    simp [first_letter_of_lower]
  · exact hexAlphabet_alnum (mem_compute_hash (List.mem_of_mem_take (List.mem_of_mem_drop h)))

/-- Unfolding of `generate_cuid` on the success path: a valid length and all
platform services available.  The final counter is the wrapped increment. -/
theorem generate_cuid_ok (length c : Nat) (env : Env) (ls ss fs : Nat → Nat) (ms : Nat)
    (h1 : MIN_LENGTH ≤ length) (h2 : length ≤ MAX_LENGTH)
    (hl : env.letterSeed = some ls) (hc : env.clockMillis = some ms)
    (hs : env.saltSeed = some ss) (hf : env.fpSeed = some fs) :
    generate_cuid length env c = (Except.ok (cuid_value length ls ms c ss fs), (c + 1) % U64) := by
  rw [generate_cuid, if_neg (not_not_intro ⟨h1, h2⟩), hl, hc, hs, hf]
  rfl

/-- Any successful `generate_cuid` call had a valid length, all platform
services available, and returns exactly `cuid_value` with the fetched counter
value rendered into the composite. -/
theorem generate_cuid_ok_inv (length : Nat) (env : Env) (c : Nat) (s : List Char)
    (h : (generate_cuid length env c).1 = Except.ok s) :
    ∃ ls ms ss fs, env.letterSeed = some ls ∧ env.clockMillis = some ms
      ∧ env.saltSeed = some ss ∧ env.fpSeed = some fs
      ∧ MIN_LENGTH ≤ length ∧ length ≤ MAX_LENGTH
      ∧ s = cuid_value length ls ms c ss fs := by
  by_cases hrange : MIN_LENGTH ≤ length ∧ length ≤ MAX_LENGTH
  · obtain ⟨h1, h2⟩ := hrange
    obtain ⟨lseed, cms, sseed, fseed⟩ := env
    cases lseed with
    | none => rw [generate_cuid, if_neg (not_not_intro ⟨h1, h2⟩)] at h; simp [generate_random_letter] at h
    | some ls =>
      cases cms with
      | none => rw [generate_cuid, if_neg (not_not_intro ⟨h1, h2⟩)] at h; simp [generate_random_letter] at h
      | some ms =>
        cases sseed with
        | none =>
          rw [generate_cuid, if_neg (not_not_intro ⟨h1, h2⟩)] at h
          simp [generate_random_letter, generate_entropy] at h
        | some ss =>
          cases fseed with
          | none =>
            rw [generate_cuid, if_neg (not_not_intro ⟨h1, h2⟩)] at h
            simp [generate_random_letter, generate_entropy, generate_fingerprint] at h
          | some fs =>
            rw [generate_cuid_ok length c _ ls ss fs ms h1 h2 rfl rfl rfl rfl] at h
            refine ⟨ls, ms, ss, fs, rfl, rfl, rfl, rfl, h1, h2, ?_⟩
            simpa using h.symm
  · rw [generate_cuid, if_pos hrange] at h
    simp at h

/-! ## Claim theorems about the generator -/

/-- C1: every successful `generate_cuid length` call returns a string of
exactly `length` characters whose first character is an ASCII lowercase
letter and whose characters are all ASCII lowercase letters or ASCII digits.
(Success itself forces `MIN_LENGTH ≤ length ≤ MAX_LENGTH`.) -/
theorem generate_cuid_format (length : Nat) (env : Env) (c : Nat) (s : List Char)
    (h : (generate_cuid length env c).1 = Except.ok s) :
    s.length = length ∧ is_ascii_lowercase (s.headD '?') = true
      ∧ ∀ ch ∈ s, (is_ascii_lowercase ch || is_ascii_digit ch) = true := by
  obtain ⟨ls, ms, ss, fs, _, _, _, _, h1, h2, rfl⟩ := generate_cuid_ok_inv length env c s h
  refine ⟨cuid_value_length length ls ms c ss fs h1 h2, ?_, ?_⟩
  · rw [cuid_value_head]
    exact first_letter_of_lower ls
  · intro ch hch
    exact cuid_value_mem length ls ms c ss fs hch

/-- A concrete environment: every oracle stream constantly 0, clock reading 0. -/
def env0 : Env := ⟨some (fun _ => 0), some 0, some (fun _ => 0), some (fun _ => 0)⟩

set_option maxRecDepth 10000 in
theorem generate_cuid_format_witness :
    (generate_cuid 2 env0 0).1 = Except.ok ['a', 'e']
      ∧ ((['a', 'e'] : List Char).length = 2
          ∧ is_ascii_lowercase ((['a', 'e'] : List Char).headD '?') = true
          ∧ ∀ ch ∈ (['a', 'e'] : List Char),
              (is_ascii_lowercase ch || is_ascii_digit ch) = true) :=
  have h : (generate_cuid 2 env0 0).1 = Except.ok ['a', 'e'] := by rfl
  ⟨h, generate_cuid_format 2 env0 0 ['a', 'e'] h⟩

/-- The composite hash input as §4.4 step 6 of the spec words it:
`timestamp_digits || salt || counter_digits || fingerprint`. -/
def spec_hash_input (timestamp_digits salt counter_digits fingerprint : List Char) :
    List Char :=
  timestamp_digits ++ salt ++ counter_digits ++ fingerprint

/-- The final assembly as §4.4 step 8 of the spec words it: `first_letter`
followed by `digest[1..length]`, i.e. the digest's own leading character is
discarded; on the `length`-character digest of step 7 that slice is
`digest.drop 1`. -/
def spec_assemble (first_letter : Char) (digest : List Char) : List Char :=
  first_letter :: digest.drop 1

/-- C2: on a successful call, the hash input is the concatenation, in this
fixed order, of the decimal timestamp digits, the `length`-character entropy
salt, the decimal counter digits and the fingerprint; the returned identifier
equals the independently drawn random lowercase letter followed by characters
`1..length` of the `length`-character digest of that composite, and its total
length is exactly `length`. -/
theorem generate_cuid_composition (length c : Nat) (env : Env) (ls ss fs : Nat → Nat)
    (ms : Nat) (h1 : MIN_LENGTH ≤ length) (h2 : length ≤ MAX_LENGTH)
    (hl : env.letterSeed = some ls) (hc : env.clockMillis = some ms)
    (hs : env.saltSeed = some ss) (hf : env.fpSeed = some fs) :
    (generate_cuid length env c).1
        = Except.ok (spec_assemble (first_letter_of ls)
            (compute_hash (spec_hash_input (Nat.repr ms).data (entropy_chars length ss)
              (Nat.repr c).data (fingerprint_chars fs)) length))
      ∧ (spec_assemble (first_letter_of ls)
            (compute_hash (spec_hash_input (Nat.repr ms).data (entropy_chars length ss)
              (Nat.repr c).data (fingerprint_chars fs)) length)).length = length := by
  have h2' : length ≤ 128 := by
    rw [MAX_LENGTH] at h2
    omega
  have hdig : (compute_hash ((Nat.repr ms).data ++ entropy_chars length ss
      ++ (Nat.repr c).data ++ fingerprint_chars fs) length).length = length := by
    rw [compute_hash_length]
    omega
  constructor
  · rw [generate_cuid_ok length c env ls ss fs ms h1 h2 hl hc hs hf]
    show Except.ok _ = Except.ok _
    rw [cuid_value, spec_assemble, spec_hash_input]
    rw [List.take_of_length_le (le_of_eq hdig)]
  · rw [spec_assemble, spec_hash_input, List.length_cons, List.length_drop, hdig]
    rw [MIN_LENGTH] at h1
    omega

theorem generate_cuid_composition_witness :
    (generate_cuid 24 env0 0).1
        = Except.ok (spec_assemble (first_letter_of (fun _ => 0))
            (compute_hash (spec_hash_input (Nat.repr 0).data (entropy_chars 24 (fun _ => 0))
              (Nat.repr 0).data (fingerprint_chars (fun _ => 0))) 24))
      ∧ (spec_assemble (first_letter_of (fun _ => 0))
            (compute_hash (spec_hash_input (Nat.repr 0).data (entropy_chars 24 (fun _ => 0))
              (Nat.repr 0).data (fingerprint_chars (fun _ => 0))) 24)).length = 24 :=
  generate_cuid_composition 24 0 env0 (fun _ => 0) (fun _ => 0) (fun _ => 0) 0
    (by decide) (by decide) rfl rfl rfl rfl

/-- For an in-range length the result is never the `InvalidLength` error,
whatever the platform services do. -/
theorem generate_cuid_no_invalid (length : Nat) (env : Env) (c : Nat)
    (h1 : MIN_LENGTH ≤ length) (h2 : length ≤ MAX_LENGTH) (len0 min0 max0 : Nat) :
    (generate_cuid length env c).1 ≠ Except.error (CuidError.InvalidLength len0 min0 max0) := by
  obtain ⟨lseed, cms, sseed, fseed⟩ := env
  rw [generate_cuid, if_neg (not_not_intro ⟨h1, h2⟩)]
  cases lseed with
  | none => simp [generate_random_letter]
  | some ls =>
    cases cms with
    | none => simp [generate_random_letter]
    | some ms =>
      cases sseed with
      | none => simp [generate_random_letter, generate_entropy]
      | some ss =>
        cases fseed with
        | none => simp [generate_random_letter, generate_entropy, generate_fingerprint]
        | some fs => simp [generate_random_letter, generate_entropy, generate_fingerprint]

/-- C3: `generate_cuid length` returns `InvalidLength(length, MIN_LENGTH,
MAX_LENGTH)` if and only if `length` lies outside `[MIN_LENGTH, MAX_LENGTH]`,
and on that failure the process-wide counter is unchanged (validation happens
before the counter fetch-add). -/
theorem generate_cuid_invalid_length_iff (length : Nat) (env : Env) (c : Nat) :
    ((generate_cuid length env c).1
        = Except.error (CuidError.InvalidLength length MIN_LENGTH MAX_LENGTH)
      ↔ (length < MIN_LENGTH ∨ MAX_LENGTH < length))
    ∧ ((length < MIN_LENGTH ∨ MAX_LENGTH < length) → (generate_cuid length env c).2 = c) := by
  by_cases hrange : MIN_LENGTH ≤ length ∧ length ≤ MAX_LENGTH
  · obtain ⟨h1, h2⟩ := hrange
    constructor
    · constructor
      · intro h
        exact absurd h (generate_cuid_no_invalid length env c h1 h2 _ _ _)
      · intro h
        exfalso
        omega
    · intro h
      exfalso
      omega
  · have heq : generate_cuid length env c
        = (Except.error (CuidError.InvalidLength length MIN_LENGTH MAX_LENGTH), c) := by
      rw [generate_cuid, if_pos hrange]
    rw [heq]
    exact ⟨iff_of_true rfl (by omega), fun _ => rfl⟩

theorem generate_cuid_invalid_length_iff_witness :
    (((generate_cuid 33 env0 0).1
        = Except.error (CuidError.InvalidLength 33 MIN_LENGTH MAX_LENGTH)
      ↔ (33 < MIN_LENGTH ∨ MAX_LENGTH < 33))
    ∧ ((33 < MIN_LENGTH ∨ MAX_LENGTH < 33) → (generate_cuid 33 env0 0).2 = 0)) :=
  generate_cuid_invalid_length_iff 33 env0 0

/-- C5: any identifier a successful `generate_cuid` call returns passes the
validator with bounds `MIN_LENGTH` and `MAX_LENGTH`. -/
theorem generate_cuid_validates (length : Nat) (env : Env) (c : Nat) (s : List Char)
    (h : (generate_cuid length env c).1 = Except.ok s) :
    is_valid_cuid s MIN_LENGTH MAX_LENGTH = true := by
  obtain ⟨ls, ms, ss, fs, _, _, _, _, h1, h2, rfl⟩ := generate_cuid_ok_inv length env c s h
  rw [is_valid_cuid_iff]
  have hlen := cuid_value_length length ls ms c ss fs h1 h2
  refine ⟨?_, ?_, ?_, ?_, ?_⟩
  · exact List.cons_ne_nil _ _
  · rw [cuid_value_head]
    exact first_letter_of_lower ls
  · intro ch hch
    exact cuid_value_mem length ls ms c ss fs hch
  · rw [hlen]
    exact h1
  · rw [hlen]
    exact h2

set_option maxRecDepth 10000 in
theorem generate_cuid_validates_witness :
    (generate_cuid 2 env0 0).1 = Except.ok ['a', 'e']
      ∧ is_valid_cuid ['a', 'e'] MIN_LENGTH MAX_LENGTH = true :=
  have h : (generate_cuid 2 env0 0).1 = Except.ok ['a', 'e'] := by rfl
  ⟨h, generate_cuid_validates 2 env0 0 ['a', 'e'] h⟩

/-- C9: in every identifier a successful `generate_cuid` call returns, each
character after the first is a lowercase hexadecimal digit (one of `0-9` or
`a-f`), because positions `1..length` come from a lowercase-hex digest. -/
theorem generate_cuid_tail_is_hex (length : Nat) (env : Env) (c : Nat) (s : List Char)
    (h : (generate_cuid length env c).1 = Except.ok s) :
    ∀ ch ∈ s.drop 1, ch ∈ hexAlphabet := by
  obtain ⟨ls, ms, ss, fs, _, _, _, _, h1, h2, rfl⟩ := generate_cuid_ok_inv length env c s h
  intro ch hch
  exact cuid_value_tail_hex length ls ms c ss fs hch

set_option maxRecDepth 10000 in
theorem generate_cuid_tail_is_hex_witness :
    (generate_cuid 2 env0 0).1 = Except.ok ['a', 'e']
      ∧ ∀ ch ∈ (['a', 'e'] : List Char).drop 1, ch ∈ hexAlphabet :=
  have h : (generate_cuid 2 env0 0).1 = Except.ok ['a', 'e'] := by rfl
  ⟨h, generate_cuid_tail_is_hex 2 env0 0 ['a', 'e'] h⟩

/-- C10: with a valid length, if the entropy source errors during the salt
draw or the fingerprint computation — both after the counter fetch-add — the
call returns an error even though the process-wide counter has already been
incremented. -/
theorem generate_cuid_failure_after_increment (length : Nat) (env : Env) (c : Nat)
    (ls : Nat → Nat) (ms : Nat)
    (h1 : MIN_LENGTH ≤ length) (h2 : length ≤ MAX_LENGTH)
    (hl : env.letterSeed = some ls) (hc : env.clockMillis = some ms)
    (hfail : env.saltSeed = none ∨ env.fpSeed = none) :
    (∃ e, (generate_cuid length env c).1 = Except.error e)
      ∧ (generate_cuid length env c).2 = (c + 1) % U64 := by
  rcases hfail with hsf | hff
  · rw [generate_cuid, if_neg (not_not_intro ⟨h1, h2⟩), hl, hc, hsf]
    exact ⟨⟨_, rfl⟩, rfl⟩
  · cases hsalt : env.saltSeed with
    | none =>
      rw [generate_cuid, if_neg (not_not_intro ⟨h1, h2⟩), hl, hc, hsalt]
      exact ⟨⟨_, rfl⟩, rfl⟩
    | some ss =>
      rw [generate_cuid, if_neg (not_not_intro ⟨h1, h2⟩), hl, hc, hsalt, hff]
      exact ⟨⟨_, rfl⟩, rfl⟩

/-- A concrete environment whose entropy source fails at the salt draw. -/
def envSaltFail : Env := ⟨some (fun _ => 0), some 0, none, some (fun _ => 0)⟩

theorem generate_cuid_failure_after_increment_witness :
    (∃ e, (generate_cuid 24 envSaltFail 0).1 = Except.error e)
      ∧ (generate_cuid 24 envSaltFail 0).2 = (0 + 1) % U64 :=
  generate_cuid_failure_after_increment 24 envSaltFail 0 (fun _ => 0) 0
    (by decide) (by decide) rfl rfl (Or.inl rfl)

/-! ## The counter under serialised concurrent calls (C8)

The source's `COUNTER` is an `AtomicU64` mutated only by
`fetch_add(1, Ordering::SeqCst)`.  Sequential consistency means the
fetch-adds of concurrent calls serialise into some total order; the `i`-th
call in that order observes the value below and leaves the cell at the
wrapped increment. -/

/-- Counter value observed by the `i`-th serialised `generate_cuid` call
(default length), starting from cell value `c0`. -/
def counterSeq (env : Env) (c0 : Nat) : Nat → Nat
  | 0 => c0
  | i + 1 => (generate_cuid DEFAULT_LENGTH env (counterSeq env c0 i)).2

/-- With a valid length, a working letter draw and a working clock, every
call advances the counter by one, wrapping at `2 ^ 64` — whether or not the
later salt or fingerprint draws fail. -/
theorem generate_cuid_counter_step (length : Nat) (env : Env) (c : Nat)
    (ls : Nat → Nat) (ms : Nat)
    (h1 : MIN_LENGTH ≤ length) (h2 : length ≤ MAX_LENGTH)
    (hl : env.letterSeed = some ls) (hc : env.clockMillis = some ms) :
    (generate_cuid length env c).2 = (c + 1) % U64 := by
  rw [generate_cuid, if_neg (not_not_intro ⟨h1, h2⟩), hl, hc]
  cases hsalt : env.saltSeed with
  | none => rfl
  | some ss =>
    cases hfp : env.fpSeed with
    | none => rfl
    | some fs => rfl

theorem counterSeq_closed (env : Env) (ls : Nat → Nat) (ms : Nat)
    (hl : env.letterSeed = some ls) (hc : env.clockMillis = some ms)
    (c0 : Nat) (hc0 : c0 < U64) (i : Nat) :
    counterSeq env c0 i = (c0 + i) % U64 := by
  induction i with
  | zero => simpa using (Nat.mod_eq_of_lt hc0).symm
  | succ i ih =>
    rw [counterSeq,
      generate_cuid_counter_step DEFAULT_LENGTH env _ ls ms (by decide) (by decide) hl hc, ih,
      Nat.mod_add_mod, Nat.add_assoc]

/-- C8 counterexample: as stated — for N concurrent calls, *no two* calls
observe the same counter value — the claim fails on the code, because the
64-bit counter wraps: among `2 ^ 64 + 1` serialised calls, the calls at
serialisation positions `0` and `2 ^ 64` observe the identical value. -/
theorem counterSeq_wraparound :
    (0 : Nat) ≠ 2 ^ 64 ∧ counterSeq env0 0 0 = counterSeq env0 0 (2 ^ 64) := by
  constructor
  · norm_num
  · rw [counterSeq_closed env0 (fun _ => 0) 0 rfl rfl 0 (by norm_num [U64]) (2 ^ 64)]
    norm_num [U64, counterSeq]

/-- C8 amended: the process-wide counter is mutated only by the wrapped
fetch-add, and for `N ≤ 2 ^ 64` serialised concurrent calls no two calls
observe the same counter value. -/
theorem counterSeq_injective (env : Env) (ls : Nat → Nat) (ms : Nat)
    (hl : env.letterSeed = some ls) (hc : env.clockMillis = some ms)
    (c0 N i j : Nat) (hc0 : c0 < U64) (hN : N ≤ U64)
    (hi : i < N) (hj : j < N) (hij : i ≠ j) :
    counterSeq env c0 i ≠ counterSeq env c0 j := by
  rw [counterSeq_closed env ls ms hl hc c0 hc0 i,
    counterSeq_closed env ls ms hl hc c0 hc0 j]
  have hU : U64 = 18446744073709551616 := by norm_num [U64]
  rw [hU] at hc0 hN ⊢
  omega

theorem counterSeq_injective_witness :
    counterSeq env0 0 0 ≠ counterSeq env0 0 1 :=
  counterSeq_injective env0 (fun _ => 0) 0 rfl rfl 0 2 0 1
    (by norm_num [U64]) (by norm_num [U64]) (by norm_num) (by norm_num) (by norm_num)

end Cuid2
